import Mathlib

/-!
Verification of the NexHacks embedded IMU streaming pipeline.

The development shallowly embeds the acquisition-and-streaming core of the
repository: the packed wire structures of `include/imu_packet.hpp`, the
acquisition loop of `src/sensor.cpp` (`sensor_task`), and the control and
streaming paths of `src/BLE.cpp` (`MyCharCallbacks::onWrite`,
`MyServerCallbacks::onDisconnect`, `ble_task`, `initBLE`).  The FreeRTOS
primitives are modelled by their documented semantics: the binary run
semaphore becomes a boolean gate, the bounded queue becomes a list capped at
capacity 10 with append-at-back / pop-at-front, and task interleaving becomes
an explicit event trace folded through a step function.  Control events take
effect atomically at event granularity (the code observes the gate once per
tick, so a cleared gate is seen within one period).
-/

/-- Bytes of one six-byte vector field (`int16_t [3]` in the packed struct):
a list of exactly 6 byte values. -/
def Vec6 : Type := { l : List Nat // l.length = 6 }

instance : DecidableEq Vec6 := fun a b =>
  decidable_of_iff (a.1 = b.1) Subtype.ext_iff.symm

/-- Raw 14-byte burst read from one MPU6050 (`uint8_t raw_data[14]` in
`sensor.cpp`). -/
def Burst : Type := { l : List Nat // l.length = 14 }

instance : DecidableEq Burst := fun a b =>
  decidable_of_iff (a.1 = b.1) Subtype.ext_iff.symm

/-- Bytes 0..5 of a burst (accelerometer X,Y,Z), as copied by
`memcpy(packet_buffer.samples[i].acc_X, &raw_data[0], 6)`. -/
def accOf (b : Burst) : Vec6 :=
  ⟨b.1.take 6, by rw [List.length_take, b.2]; rfl⟩

/-- Bytes 8..13 of a burst (gyro X,Y,Z), as copied by
`memcpy(packet_buffer.samples[i].gyro_X, &raw_data[8], 6)`; bytes 6..7
(temperature) are skipped. -/
def gyroOf (b : Burst) : Vec6 :=
  ⟨(b.1.drop 8).take 6, by rw [List.length_take, List.length_drop, b.2]; rfl⟩

/-- One synchronized reading, mirroring the packed `imu_sample_t` of
`imu_packet.hpp`: a 16-bit `time_offset` followed by four 3-axis vectors of
16-bit values, stored here as their raw bytes. -/
structure imu_sample_t where
  time_offset : Nat
  acc_A : Vec6
  gyro_A : Vec6
  acc_B : Vec6
  gyro_B : Vec6
deriving DecidableEq

/-- The transmission unit, mirroring the packed `ble_packet_t` of
`imu_packet.hpp`: a 32-bit `seq_id` followed by `imu_sample_t samples[3]`,
the fixed-length array spelled out as three fields. -/
structure ble_packet_t where
  seq_id : Nat
  s0 : imu_sample_t
  s1 : imu_sample_t
  s2 : imu_sample_t
deriving DecidableEq

/-- Read `samples[i]` of a packet (indices 0, 1, 2; the loop invariant keeps
the index below 3). -/
def getSample (p : ble_packet_t) (i : Nat) : imu_sample_t :=
  if i = 0 then p.s0 else if i = 1 then p.s1 else p.s2

/-- Update `samples[i]` of a packet in place. -/
def updSample (p : ble_packet_t) (i : Nat) (f : imu_sample_t → imu_sample_t) :
    ble_packet_t :=
  if i = 0 then { p with s0 := f p.s0 }
  else if i = 1 then { p with s1 := f p.s1 }
  else { p with s2 := f p.s2 }

/-- Serialize a 16-bit value as two little-endian bytes (the ESP32-C6 is
little-endian, so this is the in-memory layout the code transmits). -/
def serU16 (n : Nat) : List Nat := [n % 256, n / 256 % 256]

/-- Serialize a 32-bit value as four little-endian bytes. -/
def serU32 (n : Nat) : List Nat :=
  [n % 256, n / 256 % 256, n / 2 ^ 16 % 256, n / 2 ^ 24 % 256]

/-- The raw bytes of one packed `imu_sample_t`: fields in declaration order,
no padding (the struct carries `__attribute__((packed))`). -/
def serSample (s : imu_sample_t) : List Nat :=
  serU16 s.time_offset ++ s.acc_A.1 ++ s.gyro_A.1 ++ s.acc_B.1 ++ s.gyro_B.1

/-- The raw bytes of one packed `ble_packet_t`, exactly what
`dataChar->setValue((uint8_t*)&received_packet, sizeof(ble_packet_t))`
hands to the radio stack. -/
def serializePacket (p : ble_packet_t) : List Nat :=
  serU32 p.seq_id ++ serSample p.s0 ++ serSample p.s1 ++ serSample p.s2

/-- The `(uint16_t)((now_us - session_start) / 1000)` computation of
`sensor.cpp` line 68: 64-bit wrapping subtraction in microseconds, integer
division to milliseconds, truncation to 16 bits. -/
def elapsedMs (start now : Nat) : Nat :=
  ((now % 2 ^ 64 + 2 ^ 64 - start % 2 ^ 64) % 2 ^ 64) / 1000 % 2 ^ 16

/-- The shared mutable state of the pipeline together with observation
histories.  `gate` is the binary `sensor_run_semaphore` count,
`session_start` the global of `sensor.cpp`, `sample_index` /
`sequence_counter` / `buffer` / `raw_data` the locals of `sensor_task`
(`sample_index` and `sequence_counter` are reset at the top of the outer
loop, i.e. whenever the gate is cleared), `queue` the bounded `ble_queue`,
`connected` the NimBLE connected-peer count.  `acks` counts "ACK"
notifications, `errLogs` counts "I2C Read Failed" log lines, `sent` records
the byte payloads notified on the data characteristic, `enqueuedHist` the
packets actually placed on the queue, and `sessionLog` the `seq_id` values
of the batches completed since the current session began. -/
structure SysState where
  gate : Bool
  session_start : Nat
  sample_index : Nat
  sequence_counter : Nat
  buffer : ble_packet_t
  raw_data : Burst
  queue : List ble_packet_t
  connected : Nat
  acks : Nat
  errLogs : Nat
  sent : List (List Nat)
  enqueuedHist : List ble_packet_t
  sessionLog : List Nat
deriving DecidableEq

/-- External events driving the pipeline: a control write carrying its value
and the current `esp_timer_get_time()` microsecond count, connection
lifecycle callbacks, one iteration of the acquisition loop carrying the tick
time and the two burst-read outcomes (`none` = bus failure, in which case
the scratch buffer keeps its previous bytes), and one dequeue iteration of
`ble_task`. -/
inductive Ev where
  | ctrl (val : String) (now : Nat)
  | connect
  | disconnect
  | tick (now : Nat) (resA resB : Option Burst)
  | consume
deriving DecidableEq

/-- Write the four vector fields of `samples[i]` from the scratch buffer
contents after the A read (`rd1`) and after the B read (`rd2`); these
`memcpy` calls run unconditionally in `sensor.cpp` lines 53-64, before the
success test. -/
def writeVecs (p : ble_packet_t) (i : Nat) (rd1 rd2 : Burst) : ble_packet_t :=
  updSample p i fun sm =>
    { sm with acc_A := accOf rd1, gyro_A := gyroOf rd1,
              acc_B := accOf rd2, gyro_B := gyroOf rd2 }

/-- One iteration of the inner acquisition loop of `sensor_task`
(`sensor.cpp` lines 45-85).  Runs only while the gate is set.  Both sensor
reads update the shared scratch buffer on success and leave it untouched on
failure; the vector fields of the current slot are copied unconditionally;
only a doubly successful tick stamps `time_offset` and advances the batch
index; a full batch takes the next `seq_id` and is enqueued non-blockingly
(dropped when the queue already holds 10 packets). -/
def sensor_task_tick (s : SysState) (now : Nat) (resA resB : Option Burst) :
    SysState :=
  if s.gate then
    let rd1 := resA.getD s.raw_data
    let rd2 := resB.getD rd1
    let buf := writeVecs s.buffer s.sample_index rd1 rd2
    match resA, resB with
    | some _, some _ =>
        let buf2 := updSample buf s.sample_index
          fun sm => { sm with time_offset := elapsedMs s.session_start now }
        if s.sample_index + 1 ≥ 3 then
          let pkt := { buf2 with seq_id := s.sequence_counter }
          { s with buffer := pkt, raw_data := rd2, sample_index := 0,
                   sequence_counter := (s.sequence_counter + 1) % 2 ^ 32,
                   queue := if s.queue.length < 10 then s.queue ++ [pkt]
                            else s.queue,
                   enqueuedHist := if s.queue.length < 10 then
                                     s.enqueuedHist ++ [pkt]
                                   else s.enqueuedHist,
                   sessionLog := s.sessionLog ++ [s.sequence_counter] }
        else
          { s with buffer := buf2, raw_data := rd2,
                   sample_index := s.sample_index + 1 }
    | _, _ =>
        { s with buffer := buf, raw_data := rd2, errLogs := s.errLogs + 1 }
  else s

/-- Clearing the gate stops the inner loop; the outer loop of `sensor_task`
then resets `sample_index` and `sequence_counter` (lines 32-33) and blocks,
so the per-session log is closed as well. -/
def gateClear (s : SysState) : SysState :=
  { s with gate := false, sample_index := 0, sequence_counter := 0,
           sessionLog := [] }

/-- The status-characteristic write handler `MyCharCallbacks::onWrite`
(`BLE.cpp` lines 95-110): "Start" captures the session timestamp, notifies
"ACK" once and gives the binary semaphore (no effect when already given);
"Stop" takes the semaphore (clearing the gate); any other value does
nothing. -/
def onWrite (s : SysState) (val : String) (now : Nat) : SysState :=
  if val = "Start" then
    { s with session_start := now, acks := s.acks + 1, gate := true }
  else if val = "Stop" then gateClear s
  else s

/-- The disconnect callback `MyServerCallbacks::onDisconnect` (`BLE.cpp`
lines 85-89): takes the run semaphore to stop any recording loop. -/
def onDisconnect (s : SysState) : SysState :=
  gateClear { s with connected := s.connected - 1 }

/-- One iteration of the consumer `ble_task` (`BLE.cpp` lines 112-133):
dequeue the front packet; if at least one peer is connected, notify its raw
bytes on the data characteristic, otherwise discard it. -/
def ble_task_step (s : SysState) : SysState :=
  match s.queue with
  | [] => s
  | p :: rest =>
      if 0 < s.connected then
        { s with queue := rest, sent := s.sent ++ [serializePacket p] }
      else
        { s with queue := rest }

/-- The transition function of the whole pipeline on one event. -/
def step (s : SysState) (e : Ev) : SysState :=
  match e with
  | .ctrl v now => onWrite s v now
  | .connect => { s with connected := s.connected + 1 }
  | .disconnect => onDisconnect s
  | .tick now resA resB => sensor_task_tick s now resA resB
  | .consume => ble_task_step s

/-- Fold a trace of events through the step function. -/
def run (s : SysState) (evs : List Ev) : SysState := evs.foldl step s

/-- The boot state: the gate starts cleared, the C++ globals are
zero-initialized, `ble_queue` is created empty by `initBLE`, and the
stack-allocated `packet_buffer` and `raw_data` of `sensor_task` start with
indeterminate contents, taken here as parameters. -/
def initState (pb : ble_packet_t) (rd : Burst) : SysState :=
  { gate := false, session_start := 0, sample_index := 0,
    sequence_counter := 0, buffer := pb, raw_data := rd, queue := [],
    connected := 0, acks := 0, errLogs := 0, sent := [],
    enqueuedHist := [], sessionLog := [] }

/-- A doubly successful tick: its capture time and the two sensor bursts. -/
structure TickIn where
  now : Nat
  a : Burst
  b : Burst
deriving DecidableEq

/-- The environment input of one acquisition tick: the capture time and the
outcome of each burst read (`none` = bus failure). -/
structure TIn where
  now : Nat
  ra : Option Burst
  rb : Option Burst
deriving DecidableEq

/-- View a tick input as a trace event. -/
def TIn.toEv (t : TIn) : Ev := .tick t.now t.ra t.rb

/-- A tick input is successful when both reads returned data. -/
def TIn.ok : TIn → Option TickIn
  | ⟨now, some a, some b⟩ => some ⟨now, a, b⟩
  | _ => none

/-- The successful ticks of a tick-input trace, in order. -/
def okOf (l : List TIn) : List TickIn := l.filterMap TIn.ok

/-- The sample a doubly successful tick contributes: time offset from the
captured session start and the four vectors sliced from its own two
bursts. -/
def specSample (start : Nat) (t : TickIn) : imu_sample_t :=
  { time_offset := elapsedMs start t.now, acc_A := accOf t.a,
    gyro_A := gyroOf t.a, acc_B := accOf t.b, gyro_B := gyroOf t.b }

/-- Reference batching: consecutive triples of successful ticks become
packets with consecutive 32-bit sequence ids starting at `c`; a trailing
group of fewer than 3 ticks produces nothing. -/
def specPackets (start c : Nat) : List TickIn → List ble_packet_t
  | t1 :: t2 :: t3 :: rest =>
      { seq_id := c, s0 := specSample start t1, s1 := specSample start t2,
        s2 := specSample start t3 } ::
        specPackets start ((c + 1) % 2 ^ 32) rest
  | _ => []

/-- The packet a batch-completing successful tick assembles: the two
pending slots, the freshly written slot, and the current sequence
counter as `seq_id`. -/
def mkPkt (s : SysState) (now : Nat) (a b : Burst) : ble_packet_t :=
  { updSample (writeVecs s.buffer s.sample_index a b) s.sample_index
      (fun sm => { sm with
          time_offset := elapsedMs s.session_start now }) with
    seq_id := s.sequence_counter }

/-- The reachability invariant of the pipeline: the batch index stays below
3, the queue never exceeds its capacity of 10, a cleared gate means the
acquisition locals are in their reset state, the per-session completion log
is exactly the 32-bit reductions of 0,1,2,... and the counter is its next
value, and every transmitted payload has exactly 82 bytes. -/
def SysInv (s : SysState) : Prop :=
  s.sample_index < 3 ∧
  s.queue.length ≤ 10 ∧
  (s.gate = false →
    s.sample_index = 0 ∧ s.sequence_counter = 0 ∧ s.sessionLog = []) ∧
  s.sessionLog = (List.range s.sessionLog.length).map (· % 2 ^ 32) ∧
  s.sequence_counter = s.sessionLog.length % 2 ^ 32 ∧
  (∀ pl ∈ s.sent, pl.length = 82)

def zeroVec : Vec6 := ⟨[0, 0, 0, 0, 0, 0], rfl⟩

def zeroSample : imu_sample_t :=
  { time_offset := 0, acc_A := zeroVec, gyro_A := zeroVec,
    acc_B := zeroVec, gyro_B := zeroVec }

def zeroPacket : ble_packet_t :=
  { seq_id := 0, s0 := zeroSample, s1 := zeroSample, s2 := zeroSample }

def burst0 : Burst := ⟨[0, 0, 0, 0, 0, 0, 0, 0, 0, 0, 0, 0, 0, 0], rfl⟩

def burstA : Burst :=
  ⟨[1, 2, 3, 4, 5, 6, 7, 8, 9, 10, 11, 12, 13, 14], rfl⟩

def burstB : Burst :=
  ⟨[21, 22, 23, 24, 25, 26, 27, 28, 29, 30, 31, 32, 33, 34], rfl⟩

/-- A mid-session state used to instantiate theorems about running ticks. -/
def runningState : SysState :=
  { initState zeroPacket burst0 with gate := true, session_start := 500 }

/-- A running state whose scratch buffer holds stale nonzero bytes. -/
def staleState : SysState :=
  { initState zeroPacket burstA with gate := true }

/-- A running state with a full queue and a batch at its third slot. -/
def fullState : SysState :=
  { initState zeroPacket burst0 with
      gate := true,
      sample_index := 2,
      queue := [zeroPacket, zeroPacket, zeroPacket, zeroPacket, zeroPacket,
        zeroPacket, zeroPacket, zeroPacket, zeroPacket, zeroPacket] }

/-- A running state with a batch at its third slot and room in the queue. -/
def batchFullState : SysState :=
  { initState zeroPacket burst0 with gate := true, sample_index := 2 }

/-- A disconnected state with one packet waiting in the queue. -/
def connState : SysState :=
  { initState zeroPacket burst0 with queue := [zeroPacket] }

/-- A session that produces one packet while a peer is connected and then
loses the connection before the consumer runs. -/
def c7Prod : List Ev :=
  [Ev.connect, Ev.ctrl "Start" 0,
   Ev.tick 1000 (some burstA) (some burstB),
   Ev.tick 2000 (some burstA) (some burstB),
   Ev.tick 3000 (some burstA) (some burstB),
   Ev.disconnect]

/-- A session completing two packets. -/
def c2Trace : List Ev :=
  [Ev.ctrl "Start" 0,
   Ev.tick 1000 (some burstA) (some burstB),
   Ev.tick 2000 (some burstA) (some burstB),
   Ev.tick 3000 (some burstA) (some burstB),
   Ev.tick 4000 (some burstA) (some burstB),
   Ev.tick 5000 (some burstA) (some burstB),
   Ev.tick 6000 (some burstA) (some burstB)]

/-- A full happy path: connect, start, one completed batch, one consumer
iteration. -/
def happyTrace : List Ev :=
  [Ev.connect, Ev.ctrl "Start" 0,
   Ev.tick 1000 (some burstA) (some burstB),
   Ev.tick 2000 (some burstA) (some burstB),
   Ev.tick 3000 (some burstA) (some burstB),
   Ev.consume]

/-- The packet the happy path produces. -/
def c5pkt : ble_packet_t :=
  { seq_id := 0,
    s0 := specSample 0 ⟨1000, burstA, burstB⟩,
    s1 := specSample 0 ⟨2000, burstA, burstB⟩,
    s2 := specSample 0 ⟨3000, burstA, burstB⟩ }

/-- The spec scenario: two successful tick-pairs, one failed tick-pair, one
successful tick-pair. -/
def c1Trace : List TIn :=
  [⟨1000, some burstA, some burstB⟩, ⟨2000, some burstA, some burstB⟩,
   ⟨3000, none, some burstB⟩, ⟨4000, some burstA, some burstB⟩]

theorem run_nil (s : SysState) : run s [] = s := rfl

theorem run_cons (s : SysState) (e : Ev) (evs : List Ev) :
    run s (e :: evs) = run (step s e) evs := rfl

theorem specPackets_short (start c : Nat) (l : List TickIn)
    (h : l.length < 3) : specPackets start c l = [] := by
  match l with
  | [] => rfl
  | [_] => rfl
  | [_, _] => rfl
  | _ :: _ :: _ :: _ => simp at h; omega

theorem getSample_updSample_self (p : ble_packet_t) (i : Nat)
    (f : imu_sample_t → imu_sample_t) :
    getSample (updSample p i f) i = f (getSample p i) := by
  by_cases h0 : i = 0 <;> by_cases h1 : i = 1 <;>
    simp [getSample, updSample, h0, h1]

theorem getSample_updSample_other (p : ble_packet_t) (i j : Nat)
    (f : imu_sample_t → imu_sample_t) (hij : j ≠ i) (hj : j < 3)
    (hi : i < 3) : getSample (updSample p i f) j = getSample p j := by
  interval_cases i <;> interval_cases j <;> simp_all [getSample, updSample]

theorem getSample_seqSet (p : ble_packet_t) (c : Nat) (i : Nat) :
    getSample { p with seq_id := c } i = getSample p i := by
  simp [getSample]

theorem tick_notGate (s : SysState) (now : Nat) (ra rb : Option Burst)
    (h : s.gate = false) : sensor_task_tick s now ra rb = s := by
  simp [sensor_task_tick, h]

theorem tick_fail_left (s : SysState) (now : Nat) (rb : Option Burst)
    (h : s.gate = true) :
    sensor_task_tick s now none rb =
      { s with
          buffer := writeVecs s.buffer s.sample_index s.raw_data
                      (rb.getD s.raw_data),
          raw_data := rb.getD s.raw_data, errLogs := s.errLogs + 1 } := by
  cases rb <;> simp [sensor_task_tick, h]

theorem tick_fail_right (s : SysState) (now : Nat) (a : Burst)
    (h : s.gate = true) :
    sensor_task_tick s now (some a) none =
      { s with buffer := writeVecs s.buffer s.sample_index a a,
               raw_data := a, errLogs := s.errLogs + 1 } := by
  simp [sensor_task_tick, h]

theorem tick_succ_mid (s : SysState) (now : Nat) (a b : Burst)
    (h : s.gate = true) (hidx : s.sample_index + 1 < 3) :
    sensor_task_tick s now (some a) (some b) =
      { s with
          buffer := updSample (writeVecs s.buffer s.sample_index a b)
            s.sample_index
            (fun sm => { sm with
                time_offset := elapsedMs s.session_start now }),
          raw_data := b, sample_index := s.sample_index + 1 } := by
  simp only [sensor_task_tick, h, if_true]
  rw [if_neg (by omega)]
  rfl

theorem tick_succ_full (s : SysState) (now : Nat) (a b : Burst)
    (h : s.gate = true) (hidx : s.sample_index + 1 ≥ 3) :
    sensor_task_tick s now (some a) (some b) =
      { s with buffer := mkPkt s now a b, raw_data := b, sample_index := 0,
               sequence_counter := (s.sequence_counter + 1) % 2 ^ 32,
               queue := if s.queue.length < 10 then
                          s.queue ++ [mkPkt s now a b]
                        else s.queue,
               enqueuedHist := if s.queue.length < 10 then
                                 s.enqueuedHist ++ [mkPkt s now a b]
                               else s.enqueuedHist,
               sessionLog := s.sessionLog ++ [s.sequence_counter] } := by
  simp only [sensor_task_tick, h, if_true]
  rw [if_pos (by omega)]
  rfl

theorem length_serSample (sm : imu_sample_t) : (serSample sm).length = 26 := by
  simp [serSample, serU16, sm.acc_A.2, sm.gyro_A.2, sm.acc_B.2, sm.gyro_B.2]

theorem length_serializePacket (p : ble_packet_t) :
    (serializePacket p).length = 82 := by
  simp [serializePacket, serU32, length_serSample]

theorem Inv_step (s : SysState) (e : Ev) (h : SysInv s) : SysInv (step s e) := by
  obtain ⟨h1, h2, h3, h4, h5, h6⟩ := h
  cases e with
  | ctrl v now =>
      show SysInv (onWrite s v now)
      by_cases hv : v = "Start"
      · simp only [onWrite, if_pos hv]
        exact ⟨h1, h2, by intro hf; simp at hf, h4, h5, h6⟩
      · by_cases hv2 : v = "Stop"
        · simp only [onWrite, if_neg hv, if_pos hv2]
          exact ⟨by norm_num [gateClear], h2, fun _ => ⟨rfl, rfl, rfl⟩,
                 by simp [gateClear], by simp [gateClear], h6⟩
        · simp only [onWrite, if_neg hv, if_neg hv2]
          exact ⟨h1, h2, h3, h4, h5, h6⟩
  | connect => exact ⟨h1, h2, h3, h4, h5, h6⟩
  | disconnect =>
      show SysInv (onDisconnect s)
      exact ⟨by norm_num [onDisconnect, gateClear], h2,
             fun _ => ⟨rfl, rfl, rfl⟩, by simp [onDisconnect, gateClear],
             by simp [onDisconnect, gateClear], h6⟩
  | consume =>
      show SysInv (ble_task_step s)
      cases hq : s.queue with
      | nil => simp only [ble_task_step, hq]; exact ⟨h1, h2, h3, h4, h5, h6⟩
      | cons p rest =>
          have hlen : rest.length + 1 ≤ 10 := by
            have := h2; rw [hq] at this; simpa using this
          by_cases hc : 0 < s.connected
          · simp only [ble_task_step, hq, if_pos hc]
            refine ⟨h1, by simpa using by omega, h3, h4, h5, ?_⟩
            intro pl hpl
            rcases List.mem_append.1 hpl with hm | hm
            · exact h6 pl hm
            · simp at hm; rw [hm]; exact length_serializePacket p
          · simp only [ble_task_step, hq, if_neg hc]
            exact ⟨h1, by simpa using by omega, h3, h4, h5, h6⟩
  | tick now resA resB =>
      show SysInv (sensor_task_tick s now resA resB)
      cases hgate : s.gate with
      | false => rw [tick_notGate _ _ _ _ hgate]; exact ⟨h1, h2, h3, h4, h5, h6⟩
      | true =>
          cases resA with
          | none =>
              rw [tick_fail_left _ _ _ hgate]
              exact ⟨h1, h2, by intro hf; rw [hgate] at hf; simp at hf,
                     h4, h5, h6⟩
          | some a =>
              cases resB with
              | none =>
                  rw [tick_fail_right _ _ _ hgate]
                  exact ⟨h1, h2, by intro hf; rw [hgate] at hf; simp at hf,
                         h4, h5, h6⟩
              | some b =>
                  by_cases hidx : s.sample_index + 1 ≥ 3
                  · rw [tick_succ_full _ _ _ _ hgate hidx]
                    refine ⟨by norm_num, ?_,
                            by intro hf; rw [hgate] at hf; simp at hf,
                            ?_, ?_, h6⟩
                    · by_cases hql : s.queue.length < 10 <;>
                        simp only [if_pos, if_neg, hql, ite_true, ite_false,
                          List.length_append, List.length_singleton] <;>
                        omega
                    · simp only [List.length_append, List.length_singleton,
                        List.range_succ, List.map_append, List.map_cons,
                        List.map_nil]
                      rw [← h4, h5]
                    · simp only [List.length_append, List.length_singleton]
                      omega
                  · rw [tick_succ_mid _ _ _ _ hgate (by omega)]
                    exact ⟨by show s.sample_index + 1 < 3; omega, h2,
                           by intro hf; rw [hgate] at hf; simp at hf,
                           h4, h5, h6⟩

theorem Inv_initState (pb : ble_packet_t) (rd : Burst) :
    SysInv (initState pb rd) := by
  refine ⟨by norm_num [initState], by norm_num [initState],
          fun _ => ⟨rfl, rfl, rfl⟩, rfl, by simp [initState],
          by simp [initState]⟩

theorem Inv_run (pb : ble_packet_t) (rd : Burst) (evs : List Ev) :
    SysInv (run (initState pb rd) evs) := by
  suffices h : ∀ s, SysInv s → SysInv (run s evs) from h _ (Inv_initState pb rd)
  induction evs with
  | nil => exact fun s hs => hs
  | cons e tl ih => exact fun s hs => ih (step s e) (Inv_step s e hs)

theorem okOf_cons_fail_left (now : Nat) (rb : Option Burst) (l : List TIn) :
    okOf (⟨now, none, rb⟩ :: l) = okOf l := by
  simp [okOf, List.filterMap_cons, TIn.ok]

theorem okOf_cons_fail_right (now : Nat) (a : Burst) (l : List TIn) :
    okOf (⟨now, some a, none⟩ :: l) = okOf l := by
  simp [okOf, List.filterMap_cons, TIn.ok]

theorem okOf_cons_succ (now : Nat) (a b : Burst) (l : List TIn) :
    okOf (⟨now, some a, some b⟩ :: l) = ⟨now, a, b⟩ :: okOf l := by
  simp [okOf, List.filterMap_cons, TIn.ok]

theorem specPackets_cons3 (start c : Nat) (t1 t2 t3 : TickIn)
    (rest : List TickIn) :
    specPackets start c (t1 :: t2 :: t3 :: rest) =
      { seq_id := c, s0 := specSample start t1, s1 := specSample start t2,
        s2 := specSample start t3 } ::
        specPackets start ((c + 1) % 2 ^ 32) rest := rfl

theorem getSample_writeVecs_other (p : ble_packet_t) (i j : Nat)
    (r1 r2 : Burst) (hij : j ≠ i) (hj : j < 3) (hi : i < 3) :
    getSample (writeVecs p i r1 r2) j = getSample p j :=
  getSample_updSample_other p i j _ hij hj hi

theorem getSample_written (p : ble_packet_t) (i : Nat) (r1 r2 : Burst)
    (off : Nat) :
    getSample (updSample (writeVecs p i r1 r2) i
        (fun sm => { sm with time_offset := off })) i =
      { time_offset := off, acc_A := accOf r1, gyro_A := gyroOf r1,
        acc_B := accOf r2, gyro_B := gyroOf r2 } := by
  rw [writeVecs, getSample_updSample_self, getSample_updSample_self]

theorem ble_packet_ext (p q : ble_packet_t) (h : p.seq_id = q.seq_id)
    (h0 : p.s0 = q.s0) (h1 : p.s1 = q.s1) (h2 : p.s2 = q.s2) : p = q := by
  cases p; cases q; simp_all

/-- Core refinement of one session: running any list of tick inputs from a
mid-session state whose first `pend`-many slots hold the samples of the
pending successful ticks makes the enqueued-packet history grow by exactly
the reference batching of the pending plus new successful ticks, and leaves
the batch index at the success count modulo 3.  The bound involving the
queue length keeps every completed packet below the capacity, so none is
dropped. -/
theorem runTicks_spec (l : List TIn) :
    ∀ (s : SysState) (pend : List TickIn),
      s.gate = true →
      s.sample_index = pend.length →
      pend.length < 3 →
      (∀ i (hi : i < pend.length),
        getSample s.buffer i = specSample s.session_start (pend.get ⟨i, hi⟩)) →
      s.queue.length + (pend.length + (okOf l).length) / 3 ≤ 10 →
      (run s (l.map TIn.toEv)).enqueuedHist
          = s.enqueuedHist ++
            specPackets s.session_start s.sequence_counter (pend ++ okOf l) ∧
      (run s (l.map TIn.toEv)).sample_index
          = (pend.length + (okOf l).length) % 3 := by
  induction l with
  | nil =>
      intro s pend hg hidx hlen hbuf _
      refine ⟨?_, ?_⟩
      · rw [show okOf [] = [] from rfl, List.append_nil,
            specPackets_short _ _ _ hlen, List.append_nil]
        rfl
      · show s.sample_index = (pend.length + (okOf []).length) % 3
        rw [hidx, show okOf [] = [] from rfl]
        simp [Nat.mod_eq_of_lt hlen]
  | cons t l' ih =>
      intro s pend hg hidx hlen hbuf hq
      obtain ⟨now, ra, rb⟩ := t
      cases ra with
      | none =>
          rw [List.map_cons, run_cons,
            show TIn.toEv ⟨now, none, rb⟩ = Ev.tick now none rb from rfl]
          have hstep : step s (Ev.tick now none rb) =
              { s with
                  buffer := writeVecs s.buffer s.sample_index s.raw_data
                    (rb.getD s.raw_data),
                  raw_data := rb.getD s.raw_data,
                  errLogs := s.errLogs + 1 } := by
            rw [show step s (Ev.tick now none rb) =
              sensor_task_tick s now none rb from rfl,
              tick_fail_left _ _ _ hg]
          rw [okOf_cons_fail_left] at hq ⊢
          obtain ⟨ihA, ihB⟩ := ih (step s (Ev.tick now none rb)) pend
            (by rw [hstep]; exact hg) (by rw [hstep]; exact hidx) hlen
            (by intro i hi
                rw [hstep]
                show getSample (writeVecs s.buffer s.sample_index s.raw_data
                  (rb.getD s.raw_data)) i = specSample s.session_start _
                rw [getSample_writeVecs_other _ _ _ _ _
                  (show i ≠ s.sample_index by omega) (by omega) (by omega)]
                exact hbuf i hi)
            (by rw [hstep]; exact hq)
          refine ⟨?_, ?_⟩
          · rw [ihA, hstep]
          · rw [ihB]
      | some a =>
          cases rb with
          | none =>
              rw [List.map_cons, run_cons,
                show TIn.toEv ⟨now, some a, none⟩ = Ev.tick now (some a) none
                  from rfl]
              have hstep : step s (Ev.tick now (some a) none) =
                  { s with
                      buffer := writeVecs s.buffer s.sample_index a a,
                      raw_data := a, errLogs := s.errLogs + 1 } := by
                rw [show step s (Ev.tick now (some a) none) =
                  sensor_task_tick s now (some a) none from rfl,
                  tick_fail_right _ _ _ hg]
              rw [okOf_cons_fail_right] at hq ⊢
              obtain ⟨ihA, ihB⟩ := ih (step s (Ev.tick now (some a) none)) pend
                (by rw [hstep]; exact hg) (by rw [hstep]; exact hidx) hlen
                (by intro i hi
                    rw [hstep]
                    show getSample (writeVecs s.buffer s.sample_index a a) i
                      = specSample s.session_start _
                    rw [getSample_writeVecs_other _ _ _ _ _
                      (show i ≠ s.sample_index by omega) (by omega) (by omega)]
                    exact hbuf i hi)
                (by rw [hstep]; exact hq)
              refine ⟨?_, ?_⟩
              · rw [ihA, hstep]
              · rw [ihB]
          | some b =>
              rw [List.map_cons, run_cons,
                show TIn.toEv ⟨now, some a, some b⟩
                  = Ev.tick now (some a) (some b) from rfl]
              rw [okOf_cons_succ] at hq ⊢
              by_cases hfull : s.sample_index + 1 ≥ 3
              · -- the tick completes a batch; the pending list has 2 entries
                have hp2 : pend.length = 2 := by omega
                rcases pend with _ | ⟨p0, _ | ⟨p1, _ | ⟨p2, rest⟩⟩⟩
                · simp at hp2
                · simp at hp2
                · have hidx2 : s.sample_index = 2 := by simpa using hidx
                  have h10 : s.queue.length < 10 := by
                    simp only [List.length_cons, List.length_nil] at hq
                    omega
                  have hstep : step s (Ev.tick now (some a) (some b)) =
                      { s with
                          buffer := mkPkt s now a b,
                          raw_data := b,
                          sample_index := 0,
                          sequence_counter := (s.sequence_counter + 1) % 2 ^ 32,
                          queue := s.queue ++ [mkPkt s now a b],
                          enqueuedHist := s.enqueuedHist ++ [mkPkt s now a b],
                          sessionLog := s.sessionLog ++ [s.sequence_counter] } := by
                    rw [show step s (Ev.tick now (some a) (some b)) =
                      sensor_task_tick s now (some a) (some b) from rfl,
                      tick_succ_full _ _ _ _ hg hfull, if_pos h10, if_pos h10]
                  have hpkt : mkPkt s now a b =
                      { seq_id := s.sequence_counter,
                        s0 := specSample s.session_start p0,
                        s1 := specSample s.session_start p1,
                        s2 := specSample s.session_start ⟨now, a, b⟩ } := by
                    refine ble_packet_ext _ _ rfl ?_ ?_ ?_
                    · show getSample (mkPkt s now a b) 0 = _
                      rw [mkPkt, getSample_seqSet, hidx2,
                        getSample_updSample_other _ 2 0 _ (by omega)
                          (by omega) (by omega),
                        getSample_writeVecs_other _ 2 0 a b (by omega)
                          (by omega) (by omega)]
                      exact hbuf 0 (by norm_num)
                    · show getSample (mkPkt s now a b) 1 = _
                      rw [mkPkt, getSample_seqSet, hidx2,
                        getSample_updSample_other _ 2 1 _ (by omega)
                          (by omega) (by omega),
                        getSample_writeVecs_other _ 2 1 a b (by omega)
                          (by omega) (by omega)]
                      exact hbuf 1 (by norm_num)
                    · show getSample (mkPkt s now a b) 2 = _
                      rw [mkPkt, getSample_seqSet, hidx2, getSample_written]
                      rfl
                  obtain ⟨ihA, ihB⟩ :=
                    ih (step s (Ev.tick now (some a) (some b))) []
                      (by rw [hstep]; exact hg) (by rw [hstep]; rfl)
                      (by norm_num) (fun i hi => absurd hi (by simp))
                      (by rw [hstep]
                          show (s.queue ++ [mkPkt s now a b]).length +
                            (([] : List TickIn).length + (okOf l').length) / 3
                              ≤ 10
                          simp only [List.length_append, List.length_cons,
                            List.length_nil] at hq ⊢
                          omega)
                  refine ⟨?_, ?_⟩
                  · rw [ihA, hstep]
                    simp only [List.nil_append, List.cons_append,
                      specPackets_cons3, ← hpkt, List.append_assoc,
                      List.singleton_append]
                  · rw [ihB]
                    simp only [List.length_nil, List.length_cons]
                    omega
                · simp at hp2
              · -- successful tick, batch not yet full
                have hstep : step s (Ev.tick now (some a) (some b)) =
                    { s with
                        buffer := updSample
                          (writeVecs s.buffer s.sample_index a b)
                          s.sample_index
                          (fun sm => { sm with
                            time_offset := elapsedMs s.session_start now }),
                        raw_data := b,
                        sample_index := s.sample_index + 1 } := by
                  rw [show step s (Ev.tick now (some a) (some b)) =
                    sensor_task_tick s now (some a) (some b) from rfl,
                    tick_succ_mid _ _ _ _ hg (by omega)]
                obtain ⟨ihA, ihB⟩ :=
                  ih (step s (Ev.tick now (some a) (some b)))
                    (pend ++ [⟨now, a, b⟩])
                    (by rw [hstep]; exact hg)
                    (by rw [hstep]
                        show s.sample_index + 1 = (pend ++ [_]).length
                        simp [hidx])
                    (by simp only [List.length_append, List.length_cons,
                          List.length_nil]
                        omega)
                    (by intro i hi
                        rw [hstep]
                        show getSample (updSample
                          (writeVecs s.buffer s.sample_index a b)
                          s.sample_index
                          (fun sm => { sm with
                            time_offset := elapsedMs s.session_start now })) i
                          = specSample s.session_start _
                        by_cases hcase : i = pend.length
                        · subst hcase
                          rw [hidx] at *
                          rw [getSample_written]
                          simp [specSample]
                        · have hilt : i < pend.length := by
                            simp only [List.length_append, List.length_cons,
                              List.length_nil] at hi
                            omega
                          rw [getSample_updSample_other _ _ _ _
                            (show i ≠ s.sample_index by omega) (by omega)
                              (by omega),
                            getSample_writeVecs_other _ _ _ _ _
                            (show i ≠ s.sample_index by omega) (by omega)
                              (by omega)]
                          have hb := hbuf i hilt
                          simp only [List.get_eq_getElem] at hb ⊢
                          rw [List.getElem_append_left hilt]
                          exact hb)
                    (by rw [hstep]
                        show s.queue.length +
                          ((pend ++ [_]).length + (okOf l').length) / 3 ≤ 10
                        simp only [List.length_append, List.length_cons,
                          List.length_nil] at hq ⊢
                        omega)
                refine ⟨?_, ?_⟩
                · rw [ihA, hstep]
                  simp only [List.append_assoc, List.singleton_append]
                · rw [ihB]
                  simp only [List.length_append, List.length_cons,
                    List.length_nil]
                  omega

theorem elapsedMs_eq (start now : Nat) (hle : start ≤ now)
    (h64 : now < 2 ^ 64) :
    elapsedMs start now = (now - start) / 1000 % 2 ^ 16 := by
  have hs : start < 2 ^ 64 := lt_of_le_of_lt hle h64
  unfold elapsedMs
  rw [Nat.mod_eq_of_lt h64, Nat.mod_eq_of_lt hs,
    show now + 2 ^ 64 - start = now - start + 2 ^ 64 by omega,
    Nat.add_mod_right,
    Nat.mod_eq_of_lt (show now - start < 2 ^ 64 by omega)]

/-- A doubly successful tick fully rewrites the slot at the current batch
index: time offset from the session start, vectors from its own bursts. -/
theorem tick_offset (s : SysState) (now : Nat) (a b : Burst)
    (hg : s.gate = true) :
    getSample (step s (Ev.tick now (some a) (some b))).buffer s.sample_index =
      { time_offset := elapsedMs s.session_start now, acc_A := accOf a,
        gyro_A := gyroOf a, acc_B := accOf b, gyro_B := gyroOf b } := by
  by_cases hfull : s.sample_index + 1 ≥ 3
  · rw [show step s (Ev.tick now (some a) (some b)) =
      sensor_task_tick s now (some a) (some b) from rfl,
      tick_succ_full _ _ _ _ hg hfull]
    show getSample (mkPkt s now a b) s.sample_index = _
    rw [mkPkt, getSample_seqSet, getSample_written]
  · rw [show step s (Ev.tick now (some a) (some b)) =
      sensor_task_tick s now (some a) (some b) from rfl,
      tick_succ_mid _ _ _ _ hg (by omega)]
    show getSample (updSample (writeVecs s.buffer s.sample_index a b)
      s.sample_index (fun sm => { sm with
        time_offset := elapsedMs s.session_start now })) s.sample_index = _
    rw [getSample_written]

theorem onWrite_start (s : SysState) (now : Nat) :
    onWrite s "Start" now =
      { s with session_start := now, acks := s.acks + 1, gate := true } := by
  rw [onWrite, if_pos rfl]

theorem onWrite_stop (s : SysState) (now : Nat) :
    onWrite s "Stop" now = gateClear s := by
  rw [onWrite, if_neg (by decide), if_pos rfl]

theorem onWrite_other (s : SysState) (v : String) (now : Nat)
    (h1 : v ≠ "Start") (h2 : v ≠ "Stop") : onWrite s v now = s := by
  rw [onWrite, if_neg h1, if_neg h2]

/-- Control writes never touch the queue, the enqueued history or the data
endpoint. -/
theorem ctrl_effects (s : SysState) (v : String) (now : Nat) :
    (step s (Ev.ctrl v now)).enqueuedHist = s.enqueuedHist ∧
    (step s (Ev.ctrl v now)).queue = s.queue ∧
    (step s (Ev.ctrl v now)).sent = s.sent := by
  show (onWrite s v now).enqueuedHist = _ ∧ (onWrite s v now).queue = _ ∧
    (onWrite s v now).sent = _
  unfold onWrite gateClear
  split_ifs <;> exact ⟨rfl, rfl, rfl⟩

theorem ble_task_step_cons (s : SysState) (p : ble_packet_t)
    (rest : List ble_packet_t) (hq : s.queue = p :: rest) :
    ble_task_step s =
      if 0 < s.connected then
        { s with queue := rest, sent := s.sent ++ [serializePacket p] }
      else { s with queue := rest } := by
  unfold ble_task_step
  rw [hq]

theorem ble_task_step_nil (s : SysState) (hq : s.queue = []) :
    ble_task_step s = s := by
  unfold ble_task_step
  rw [hq]

/-- C6: the Run Gate admits exactly the transitions of the state machine: a
"Start" control write sets the gate, captures the session-start timestamp
and notifies one more "ACK"; a "Stop" write clears the gate (resetting the
acquisition locals once the inner loop exits); a disconnect does the same
while dropping the peer; any other control value leaves the state untouched
(no transition, no acknowledgment, no error surfaced); the notification
count grows exactly on "Start". -/
theorem claim_C6 :
    (∀ s now, step s (Ev.ctrl "Start" now) =
      { s with session_start := now, acks := s.acks + 1, gate := true }) ∧
    (∀ s now, step s (Ev.ctrl "Stop" now) =
      { s with gate := false, sample_index := 0, sequence_counter := 0,
               sessionLog := [] }) ∧
    (∀ s, step s Ev.disconnect =
      { s with gate := false, connected := s.connected - 1,
               sample_index := 0, sequence_counter := 0,
               sessionLog := [] }) ∧
    (∀ s v now, v ≠ "Start" → v ≠ "Stop" → step s (Ev.ctrl v now) = s) ∧
    (∀ s v now, (step s (Ev.ctrl v now)).acks =
      s.acks + (if v = "Start" then 1 else 0)) := by
  refine ⟨?_, ?_, ?_, ?_, ?_⟩
  · intro s now
    show onWrite s "Start" now = _
    rw [onWrite_start]
  · intro s now
    show onWrite s "Stop" now = _
    rw [onWrite_stop]
    rfl
  · intro s
    show onDisconnect s = _
    rfl
  · intro s v now h1 h2
    show onWrite s v now = s
    rw [onWrite_other _ _ _ h1 h2]
  · intro s v now
    by_cases hv : v = "Start"
    · subst hv
      show (onWrite s "Start" now).acks = _
      rw [onWrite_start, if_pos rfl]
    · by_cases hv2 : v = "Stop"
      · subst hv2
        show (onWrite s "Stop" now).acks = _
        rw [onWrite_stop, if_neg hv]
        simp [gateClear]
      · show (onWrite s v now).acks = _
        rw [onWrite_other _ _ _ hv hv2, if_neg hv]
        exact (Nat.add_zero s.acks).symm

/-- C6 witness: an unrecognized control value at a concrete state causes no
transition and no acknowledgment. -/
theorem claim_C6_witness :
    ("Reset" : String) ≠ "Start" ∧
    step runningState (Ev.ctrl "Reset" 5) = runningState :=
  ⟨by decide,
   claim_C6.2.2.2.1 runningState "Reset" 5 (by decide) (by decide)⟩

/-- C8: on a doubly successful tick, the sample written at the current batch
index carries `time_offset` equal to the whole milliseconds elapsed between
the captured session start and the capture time of the tick, reduced modulo
2^16; and a "Start" write (re)captures the session-start timestamp, so a
re-Start resets the zero point. -/
theorem claim_C8 (s : SysState) (now : Nat) (a b : Burst)
    (hg : s.gate = true) (hle : s.session_start ≤ now)
    (h64 : now < 2 ^ 64) :
    (getSample (step s (Ev.tick now (some a) (some b))).buffer
        s.sample_index).time_offset
      = (now - s.session_start) / 1000 % 2 ^ 16 ∧
    (∀ t, (step s (Ev.ctrl "Start" t)).session_start = t) := by
  constructor
  · rw [tick_offset s now a b hg]
    exact elapsedMs_eq _ _ hle h64
  · intro t
    show (onWrite s "Start" t).session_start = t
    rw [onWrite_start]

/-- C8 witness: at a concrete running state with session start 500 µs, a
successful tick at 2500 µs stamps offset (2500 - 500) / 1000 = 2 ms. -/
theorem claim_C8_witness :
    runningState.session_start ≤ 2500 ∧
    (getSample (step runningState
        (Ev.tick 2500 (some burstA) (some burstB))).buffer
      runningState.sample_index).time_offset
      = (2500 - runningState.session_start) / 1000 % 2 ^ 16 :=
  ⟨by decide,
   (claim_C8 runningState 2500 burstA burstB rfl (by decide) (by decide)).1⟩

/-- C9 counterexample: the claim that a failed sensor-A read skips the write
of the current sample's A-fields is false — at a concrete running state with
nonzero stale bytes in the scratch buffer, the tick with a failed A read
changes the A-fields of the in-progress slot. -/
theorem claim_C9_cex :
    (getSample (step staleState (Ev.tick 1000 none (some burstB))).buffer
        staleState.sample_index).acc_A
      ≠ (getSample staleState.buffer staleState.sample_index).acc_A := by
  decide

/-- C9 amended: on a tick whose A burst read fails, the current in-progress
sample's A-fields ARE written — unconditionally overwritten with the bytes
currently in the shared scratch buffer (stale data from the most recent
successful burst read) — while the batch index does not advance, nothing is
enqueued, the failure is logged, and the loop keeps running. -/
theorem claim_C9 (s : SysState) (now : Nat) (rb : Option Burst)
    (hg : s.gate = true) :
    (getSample (step s (Ev.tick now none rb)).buffer s.sample_index).acc_A
        = accOf s.raw_data ∧
    (getSample (step s (Ev.tick now none rb)).buffer s.sample_index).gyro_A
        = gyroOf s.raw_data ∧
    (step s (Ev.tick now none rb)).sample_index = s.sample_index ∧
    (step s (Ev.tick now none rb)).enqueuedHist = s.enqueuedHist ∧
    (step s (Ev.tick now none rb)).queue = s.queue ∧
    (step s (Ev.tick now none rb)).errLogs = s.errLogs + 1 ∧
    (step s (Ev.tick now none rb)).gate = true := by
  have hstep : step s (Ev.tick now none rb) =
      { s with
          buffer := writeVecs s.buffer s.sample_index s.raw_data
            (rb.getD s.raw_data),
          raw_data := rb.getD s.raw_data,
          errLogs := s.errLogs + 1 } := by
    show sensor_task_tick s now none rb = _
    rw [tick_fail_left _ _ _ hg]
  rw [hstep]
  refine ⟨?_, ?_, rfl, rfl, rfl, rfl, hg⟩
  · show (getSample (writeVecs s.buffer s.sample_index s.raw_data
      (rb.getD s.raw_data)) s.sample_index).acc_A = accOf s.raw_data
    rw [writeVecs, getSample_updSample_self]
  · show (getSample (writeVecs s.buffer s.sample_index s.raw_data
      (rb.getD s.raw_data)) s.sample_index).gyro_A = gyroOf s.raw_data
    rw [writeVecs, getSample_updSample_self]

/-- C9 witness: the amended behavior at the concrete stale state. -/
theorem claim_C9_witness :
    staleState.gate = true ∧
    (getSample (step staleState (Ev.tick 1000 none (some burstB))).buffer
        staleState.sample_index).acc_A = accOf staleState.raw_data ∧
    (step staleState (Ev.tick 1000 none (some burstB))).sample_index
      = staleState.sample_index :=
  ⟨rfl, (claim_C9 staleState 1000 (some burstB) rfl).1,
   (claim_C9 staleState 1000 (some burstB) rfl).2.2.1⟩

/-- C10: a "Start" control write received while the gate is already set is
not rejected: it re-captures the session-start timestamp and notifies one
more "ACK" while everything else — gate, batch index, sequence counter,
session log, queue, histories — stays unchanged; a subsequent doubly
successful tick stamps its offset against the new zero point. -/
theorem claim_C10 (s : SysState) (t : Nat) (hg : s.gate = true) :
    step s (Ev.ctrl "Start" t) =
      { s with session_start := t, acks := s.acks + 1 } ∧
    (∀ s2 now a b, s2 = step s (Ev.ctrl "Start" t) → t ≤ now →
      now < 2 ^ 64 →
      (getSample (step s2 (Ev.tick now (some a) (some b))).buffer
          s2.sample_index).time_offset = (now - t) / 1000 % 2 ^ 16) := by
  have hfirst : step s (Ev.ctrl "Start" t) =
      { s with session_start := t, acks := s.acks + 1 } := by
    show onWrite s "Start" t = _
    rw [onWrite_start, hg]
  refine ⟨hfirst, ?_⟩
  intro s2 now a b hs2 hle h64
  rw [hs2, hfirst]
  rw [tick_offset { s with session_start := t, acks := s.acks + 1 } now a b
    (by show s.gate = true; exact hg)]
  show elapsedMs t now = (now - t) / 1000 % 2 ^ 16
  exact elapsedMs_eq t now hle h64

/-- C10 witness: re-Start at a concrete running state re-zeroes the offset
of the next sample and leaves the counter state alone. -/
theorem claim_C10_witness :
    runningState.gate = true ∧
    step runningState (Ev.ctrl "Start" 1000) =
      { runningState with
          session_start := 1000,
          acks := runningState.acks + 1 } ∧
    (getSample (step (step runningState (Ev.ctrl "Start" 1000))
        (Ev.tick 3000 (some burstA) (some burstB))).buffer
      (step runningState (Ev.ctrl "Start" 1000)).sample_index).time_offset
      = (3000 - 1000) / 1000 % 2 ^ 16 :=
  ⟨rfl, (claim_C10 runningState 1000 rfl).1,
   (claim_C10 runningState 1000 rfl).2 _ 3000 burstA burstB rfl (by decide)
     (by decide)⟩

/-- C4: in every reachable state the Hand-off Queue holds at most its
capacity of 10 Packets, and a batch completed while the queue is full is
simply dropped: queue and enqueued history are unchanged while the
acquisition loop proceeds — batch index reset, sequence counter advanced,
completion still logged — instead of blocking or retrying. -/
theorem claim_C4 :
    (∀ pb rd evs, (run (initState pb rd) evs).queue.length ≤ 10) ∧
    (∀ s now a b, s.gate = true → s.sample_index = 2 →
      s.queue.length = 10 →
      (step s (Ev.tick now (some a) (some b))).queue = s.queue ∧
      (step s (Ev.tick now (some a) (some b))).enqueuedHist
        = s.enqueuedHist ∧
      (step s (Ev.tick now (some a) (some b))).sample_index = 0 ∧
      (step s (Ev.tick now (some a) (some b))).sequence_counter
        = (s.sequence_counter + 1) % 2 ^ 32 ∧
      (step s (Ev.tick now (some a) (some b))).sessionLog
        = s.sessionLog ++ [s.sequence_counter]) := by
  constructor
  · intro pb rd evs
    exact (Inv_run pb rd evs).2.1
  · intro s now a b hg hidx h10
    rw [show step s (Ev.tick now (some a) (some b)) =
      sensor_task_tick s now (some a) (some b) from rfl,
      tick_succ_full s now a b hg (by omega), if_neg (by omega),
      if_neg (by omega)]
    exact ⟨rfl, rfl, rfl, rfl, rfl⟩

/-- C4 witness: at a concrete running state with 10 queued packets, the
completing tick drops the new packet and the loop proceeds. -/
theorem claim_C4_witness :
    fullState.queue.length = 10 ∧
    (step fullState (Ev.tick 1000 (some burstA) (some burstB))).queue
      = fullState.queue ∧
    (step fullState (Ev.tick 1000 (some burstA) (some burstB))).sample_index
      = 0 :=
  ⟨rfl, (claim_C4.2 fullState 1000 burstA burstB rfl rfl rfl).1,
   (claim_C4.2 fullState 1000 burstA burstB rfl rfl rfl).2.2.1⟩

/-- C7 counterexample: after `c7Prod` no peer is connected, a packet
produced during the lost connection is still queued and nothing was sent;
yet after a fresh connect followed by one consumer iteration — with no
production after the connect — that old packet IS delivered, refuting "once
a peer connects, only Packets produced after the connection are
delivered". -/
theorem claim_C7_cex :
    (run (initState zeroPacket burst0) c7Prod).connected = 0 ∧
    (run (initState zeroPacket burst0) c7Prod).queue ≠ [] ∧
    (run (initState zeroPacket burst0) c7Prod).sent = [] ∧
    (run (initState zeroPacket burst0)
        (c7Prod ++ [Ev.connect, Ev.consume])).sent ≠ [] := by
  decide

/-- C7 amended: a Packet dequeued while zero peers are connected is consumed
and discarded — not re-queued, not notified; delivery is decided solely by
the connected count at the moment of dequeue, so a Packet still in the queue
when a peer connects is delivered even if it was produced before that
connection (no backlog replay holds only when the queue is drained before
the connect). -/
theorem claim_C7 (s : SysState) (p : ble_packet_t)
    (rest : List ble_packet_t) (hq : s.queue = p :: rest) :
    (s.connected = 0 → step s Ev.consume = { s with queue := rest }) ∧
    (0 < s.connected → step s Ev.consume =
      { s with queue := rest, sent := s.sent ++ [serializePacket p] }) := by
  constructor
  · intro hc
    show ble_task_step s = _
    rw [ble_task_step_cons s p rest hq, if_neg (by omega)]
  · intro hc
    show ble_task_step s = _
    rw [ble_task_step_cons s p rest hq, if_pos hc]

/-- C7 witness: the discard branch at a concrete disconnected state. -/
theorem claim_C7_witness :
    connState.queue = [zeroPacket] ∧ connState.connected = 0 ∧
    step connState Ev.consume = { connState with queue := [] } :=
  ⟨rfl, rfl, (claim_C7 connState zeroPacket [] rfl).1 rfl⟩

/-- C3: the enqueued-packet history grows only on a doubly successful tick
fired with the batch at its third slot (so every enqueued Packet carries 3
completed samples); control writes and disconnects never enqueue anything
and never touch the queue — a batch in progress when the gate is cleared is
simply abandoned, the index resetting to 0 for the next session; and the
batch index never reaches 3 in any reachable state. -/
theorem claim_C3 :
    (∀ s e, (step s e).enqueuedHist ≠ s.enqueuedHist →
      2 ≤ s.sample_index ∧ s.gate = true ∧
      ∃ now a b, e = Ev.tick now (some a) (some b)) ∧
    (∀ s v now, (step s (Ev.ctrl v now)).enqueuedHist = s.enqueuedHist ∧
      (step s (Ev.ctrl v now)).queue = s.queue) ∧
    (∀ s now, (step s (Ev.ctrl "Stop" now)).sample_index = 0) ∧
    (∀ s, (step s Ev.disconnect).enqueuedHist = s.enqueuedHist ∧
      (step s Ev.disconnect).queue = s.queue ∧
      (step s Ev.disconnect).sample_index = 0) ∧
    (∀ pb rd evs, (run (initState pb rd) evs).sample_index < 3) := by
  refine ⟨?_, ?_, ?_, ?_, ?_⟩
  · intro s e hne
    cases e with
    | ctrl v now => exact absurd (ctrl_effects s v now).1 hne
    | connect => exact absurd rfl hne
    | disconnect => exact absurd rfl hne
    | consume =>
        exfalso
        apply hne
        cases hq : s.queue with
        | nil => rw [show step s Ev.consume = ble_task_step s from rfl,
            ble_task_step_nil s hq]
        | cons p rest =>
            rw [show step s Ev.consume = ble_task_step s from rfl,
              ble_task_step_cons s p rest hq]
            split_ifs <;> rfl
    | tick now ra rb =>
        cases hg : s.gate with
        | false =>
            exact absurd (by rw [show step s (Ev.tick now ra rb) =
              sensor_task_tick s now ra rb from rfl,
              tick_notGate _ _ _ _ hg]) hne
        | true =>
            cases ra with
            | none =>
                exact absurd (by rw [show step s (Ev.tick now none rb) =
                  sensor_task_tick s now none rb from rfl,
                  tick_fail_left _ _ _ hg]) hne
            | some a =>
                cases rb with
                | none =>
                    exact absurd (by rw [show
                      step s (Ev.tick now (some a) none) =
                        sensor_task_tick s now (some a) none from rfl,
                      tick_fail_right _ _ _ hg]) hne
                | some b =>
                    by_cases hfull : s.sample_index + 1 ≥ 3
                    · exact ⟨by omega, rfl, now, a, b, rfl⟩
                    · exact absurd (by rw [show
                        step s (Ev.tick now (some a) (some b)) =
                          sensor_task_tick s now (some a) (some b) from rfl,
                        tick_succ_mid _ _ _ _ hg (by omega)]) hne
  · intro s v now
    exact ⟨(ctrl_effects s v now).1, (ctrl_effects s v now).2.1⟩
  · intro s now
    show (onWrite s "Stop" now).sample_index = 0
    rw [onWrite_stop]
    rfl
  · intro s
    exact ⟨rfl, rfl, rfl⟩
  · intro pb rd evs
    exact (Inv_run pb rd evs).1

/-- C3 witness: a completing tick at a concrete state is the only kind of
event that enqueues, and a Stop resets the batch index. -/
theorem claim_C3_witness :
    (2 ≤ batchFullState.sample_index ∧ batchFullState.gate = true ∧
      ∃ now a b, Ev.tick 1000 (some burstA) (some burstB)
        = Ev.tick now (some a) (some b)) ∧
    (step batchFullState (Ev.ctrl "Stop" 7)).sample_index = 0 :=
  ⟨claim_C3.1 batchFullState (Ev.tick 1000 (some burstA) (some burstB))
      (by decide),
   claim_C3.2.2.1 batchFullState 7⟩

/-- C2: in every reachable state the sequence ids of the batches completed
since the current session began are exactly 0, 1, 2, ... in order (strictly
increasing from 0, incremented once per completed batch), as long as the
session has not overflowed the 32-bit counter; and whenever the gate is
cleared the counter and log are back at their reset values, so the first
packet of the session begun by the next accepted Start carries id 0. -/
theorem claim_C2 (pb : ble_packet_t) (rd : Burst) (evs : List Ev)
    (hlen : (run (initState pb rd) evs).sessionLog.length ≤ 2 ^ 32) :
    (run (initState pb rd) evs).sessionLog
        = List.range (run (initState pb rd) evs).sessionLog.length ∧
    ((run (initState pb rd) evs).gate = false →
      (run (initState pb rd) evs).sequence_counter = 0 ∧
      (run (initState pb rd) evs).sessionLog = []) := by
  obtain ⟨-, -, h3, h4, -, -⟩ := Inv_run pb rd evs
  refine ⟨?_, fun hf => ⟨(h3 hf).2.1, (h3 hf).2.2⟩⟩
  have hid : ∀ k ∈ List.range
      (run (initState pb rd) evs).sessionLog.length, k % 2 ^ 32 = k :=
    fun k hk => Nat.mod_eq_of_lt (lt_of_lt_of_le (List.mem_range.1 hk) hlen)
  conv_lhs => rw [h4]
  rw [List.map_congr_left hid]
  simp

/-- C2 witness: a concrete two-packet session logs ids [0, 1]. -/
theorem claim_C2_witness :
    (run (initState zeroPacket burst0) c2Trace).sessionLog.length ≤ 2 ^ 32 ∧
    (run (initState zeroPacket burst0) c2Trace).sessionLog
      = List.range
          (run (initState zeroPacket burst0) c2Trace).sessionLog.length :=
  ⟨by decide, (claim_C2 zeroPacket burst0 c2Trace (by decide)).1⟩

/-- C5: serializing a Packet yields exactly 82 bytes — the 4-byte sequence
id, then three 26-byte samples, each the 2-byte time offset followed by the
four 6-byte vector fields in declaration order with no padding — and every
payload the Streaming Task hands to the radio in any reachable state has
exactly 82 bytes. -/
theorem claim_C5 :
    (∀ p, (serializePacket p).length = 82) ∧
    (∀ sm, (serSample sm).length = 26) ∧
    (∀ p, (serializePacket p).take 4 = serU32 p.seq_id ∧
      ((serializePacket p).drop 4).take 26 = serSample p.s0 ∧
      (((serializePacket p).drop 4).drop 26).take 26 = serSample p.s1 ∧
      (((serializePacket p).drop 4).drop 26).drop 26 = serSample p.s2) ∧
    (∀ sm, (serSample sm).take 2 = serU16 sm.time_offset ∧
      ((serSample sm).drop 2).take 6 = sm.acc_A.1 ∧
      (((serSample sm).drop 2).drop 6).take 6 = sm.gyro_A.1 ∧
      ((((serSample sm).drop 2).drop 6).drop 6).take 6 = sm.acc_B.1 ∧
      ((((serSample sm).drop 2).drop 6).drop 6).drop 6 = sm.gyro_B.1) ∧
    (∀ pb rd evs pl, pl ∈ (run (initState pb rd) evs).sent →
      pl.length = 82) := by
  refine ⟨length_serializePacket, length_serSample, ?_, ?_, ?_⟩
  · intro p
    have hassoc : serializePacket p = serU32 p.seq_id ++
        (serSample p.s0 ++ (serSample p.s1 ++ serSample p.s2)) := by
      simp [serializePacket, List.append_assoc]
    refine ⟨?_, ?_, ?_, ?_⟩
    · rw [hassoc, List.take_left' (by simp [serU32])]
    · rw [hassoc, List.drop_left' (by simp [serU32]),
        List.take_left' (length_serSample p.s0)]
    · rw [hassoc, List.drop_left' (by simp [serU32]),
        List.drop_left' (length_serSample p.s0),
        List.take_left' (length_serSample p.s1)]
    · rw [hassoc, List.drop_left' (by simp [serU32]),
        List.drop_left' (length_serSample p.s0),
        List.drop_left' (length_serSample p.s1)]
  · intro sm
    have hassoc : serSample sm = serU16 sm.time_offset ++
        (sm.acc_A.1 ++ (sm.gyro_A.1 ++ (sm.acc_B.1 ++ sm.gyro_B.1))) := by
      simp [serSample, List.append_assoc]
    refine ⟨?_, ?_, ?_, ?_, ?_⟩
    · rw [hassoc, List.take_left' (by simp [serU16])]
    · rw [hassoc, List.drop_left' (by simp [serU16]),
        List.take_left' sm.acc_A.2]
    · rw [hassoc, List.drop_left' (by simp [serU16]),
        List.drop_left' sm.acc_A.2, List.take_left' sm.gyro_A.2]
    · rw [hassoc, List.drop_left' (by simp [serU16]),
        List.drop_left' sm.acc_A.2, List.drop_left' sm.gyro_A.2,
        List.take_left' sm.acc_B.2]
    · rw [hassoc, List.drop_left' (by simp [serU16]),
        List.drop_left' sm.acc_A.2, List.drop_left' sm.gyro_A.2,
        List.drop_left' sm.acc_B.2]
  · intro pb rd evs pl hpl
    exact (Inv_run pb rd evs).2.2.2.2.2 pl hpl

/-- C5 witness: the payload actually sent on the happy path has 82 bytes. -/
theorem claim_C5_witness :
    serializePacket c5pkt ∈
      (run (initState zeroPacket burst0) happyTrace).sent ∧
    (serializePacket c5pkt).length = 82 :=
  ⟨by decide,
   claim_C5.2.2.2.2 zeroPacket burst0 happyTrace
     (serializePacket c5pkt) (by decide)⟩

/-- C1: starting a fresh session and running any sequence of ticks, the
packets placed on the Hand-off Queue are exactly the reference batching of
the doubly successful ticks — each group of 3 successful ticks, wherever
failed ticks are interleaved, yields one packet built solely from those
successful reads (the slot written by a failed tick is fully overwritten
before the batch advances), and a trailing group of fewer than 3 successful
ticks yields nothing; the batch index afterwards is the success count
modulo 3.  The bound keeps the session below queue capacity, where claim C4
takes over. -/
theorem claim_C1 (pb : ble_packet_t) (rd : Burst) (t0 : Nat) (l : List TIn)
    (hcnt : (okOf l).length ≤ 32) :
    (run (initState pb rd)
        (Ev.ctrl "Start" t0 :: l.map TIn.toEv)).enqueuedHist
      = specPackets t0 0 (okOf l) ∧
    (run (initState pb rd)
        (Ev.ctrl "Start" t0 :: l.map TIn.toEv)).sample_index
      = (okOf l).length % 3 := by
  rw [run_cons]
  have hstep : step (initState pb rd) (Ev.ctrl "Start" t0) =
      { initState pb rd with
          session_start := t0,
          acks := 1,
          gate := true } := by
    show onWrite (initState pb rd) "Start" t0 = _
    rw [onWrite_start]
    rfl
  obtain ⟨hA, hB⟩ := runTicks_spec l
    (step (initState pb rd) (Ev.ctrl "Start" t0)) []
    (by rw [hstep]) (by rw [hstep]; rfl) (by norm_num)
    (fun i hi => absurd hi (by simp))
    (by rw [hstep]
        show ([] : List ble_packet_t).length +
          (([] : List TickIn).length + (okOf l).length) / 3 ≤ 10
        simp only [List.length_nil, Nat.zero_add]
        omega)
  constructor
  · rw [hA, hstep]
    show ([] : List ble_packet_t) ++ specPackets t0 0 ([] ++ okOf l)
      = specPackets t0 0 (okOf l)
    simp
  · rw [hB]
    simp

/-- C1 witness: on the scenario trace exactly one 3-sample packet is ever
completed, assembled from the three doubly successful ticks, skipping the
failed one. -/
theorem claim_C1_witness :
    (okOf c1Trace).length ≤ 32 ∧
    (run (initState zeroPacket burst0)
        (Ev.ctrl "Start" 0 :: c1Trace.map TIn.toEv)).enqueuedHist
      = specPackets 0 0 (okOf c1Trace) ∧
    (specPackets 0 0 (okOf c1Trace)).length = 1 :=
  ⟨by decide, (claim_C1 zeroPacket burst0 0 c1Trace (by decide)).1,
   by decide⟩
